import Mathlib

/-!
Verification of the goobrew Homebrew client (internal/homebrew: client and models).

The Go code is shallowly embedded: time instants are natural numbers counting
nanoseconds (matching Go time.Duration units, so one hour is 3600000000000),
Go errors are modelled as Option String or Except String, nil-able fetch
results as Option, and the concurrent goroutine pair of a catalog refresh is
modelled by passing both fetch outcomes to the state-update function that the
Go code runs under the cache mutex after joining on both channels.
-/

namespace Goobrew

/-! ## String primitives (Go strings package, ASCII case mapping) -/

/-- Whether the first character list is an initial segment of the second. -/
def leadsWith : List Char → List Char → Bool
  | [], _ => true
  | _ :: _, [] => false
  | a :: as, b :: bs => a == b && leadsWith as bs

/-- Whether the first character list occurs contiguously inside the second. -/
def occursIn (sub : List Char) : List Char → Bool
  | [] => sub.isEmpty
  | c :: rest => leadsWith sub (c :: rest) || occursIn sub (c :: rest).tail

/-- Go strings.Contains s substr. -/
def stringsContains (s substr : String) : Bool :=
  occursIn substr.data s.data

/-- Go strings.ToLower (character-wise; ASCII case mapping). -/
def stringsToLower (s : String) : String :=
  ⟨s.data.map Char.toLower⟩

/-- Two strings differ at most in letter case: same length and the characters
agree pairwise after lower-casing. -/
def caseInsensitiveEq : List Char → List Char → Bool
  | [], [] => true
  | a :: as, b :: bs => (a.toLower == b.toLower) && caseInsensitiveEq as bs
  | _, _ => false

/-! ## Data model (internal/homebrew/models.go)

Field defaults are the Go zero values. Go pointers become Option,
json.RawMessage becomes String, and Go maps become association lists. -/

structure Versions where
  Stable : String := ""
  Head : String := ""
  Bottle : Bool := false
  deriving DecidableEq

structure StableURL where
  URL : String := ""
  Tag : String := ""
  Revision : String := ""
  Using : String := ""
  Checksum : String := ""
  deriving DecidableEq

structure HeadURL where
  URL : String := ""
  Branch : String := ""
  Using : String := ""
  deriving DecidableEq

structure URLs where
  Stable : StableURL := {}
  Head : HeadURL := {}
  deriving DecidableEq

structure BottleFile where
  Cellar : String := ""
  URL : String := ""
  Sha256 : String := ""
  deriving DecidableEq

structure Bottle where
  Rebuild : Int := 0
  RootURL : String := ""
  Files : List (String × BottleFile) := []
  deriving DecidableEq

structure KegOnlyReason where
  Reason : String := ""
  Explanation : String := ""
  deriving DecidableEq

/-- Go type Option (an installation option of a formula); renamed because
Option is taken in Lean. -/
structure FormulaOption where
  OptionFlag : String := ""
  Description : String := ""
  deriving DecidableEq

structure Requirement where
  Name : String := ""
  Cask : String := ""
  Download : String := ""
  Version : String := ""
  Contexts : List String := []
  Specs : List String := []
  deriving DecidableEq

structure Dependency where
  FullName : String := ""
  Version : String := ""
  Revision : Int := 0
  PkgVersion : String := ""
  DeclaredDirectly : Bool := false
  deriving DecidableEq

structure InstalledInfo where
  Version : String := ""
  UsedOptions : List String := []
  BuiltAsBottle : Bool := false
  PouredFromBottle : Bool := false
  Time : Int := 0
  RuntimeDependencies : List Dependency := []
  InstalledAsDependency : Bool := false
  InstalledOnRequest : Bool := false
  deriving DecidableEq

structure Service where
  Name : String := ""
  RunType : String := ""
  RunAtLoad : Bool := false
  KeepAlive : String := ""
  WorkingDir : String := ""
  deriving DecidableEq

structure RubyChecksum where
  Sha256 : String := ""
  deriving DecidableEq

structure Formula where
  Name : String := ""
  FullName : String := ""
  Tap : String := ""
  OldName : String := ""
  Aliases : List String := []
  VersionedFormulae : List String := []
  Desc : String := ""
  License : String := ""
  Homepage : String := ""
  FVersions : Versions := {}
  Urls : URLs := {}
  Revision : Int := 0
  VersionScheme : Int := 0
  FBottle : Bottle := {}
  KegOnly : Bool := false
  FKegOnlyReason : Option KegOnlyReason := none
  Options : List FormulaOption := []
  BuildDependencies : List String := []
  Dependencies : List String := []
  TestDependencies : List String := []
  RecommendedDeps : List String := []
  OptionalDeps : List String := []
  UsesFromMacos : List String := []
  UsesFromMacosBounds : List (List (String × String)) := []
  Requirements : List Requirement := []
  ConflictsWith : List String := []
  ConflictsWithReasons : List String := []
  LinkOverwrite : List String := []
  Caveats : String := ""
  Installed : List InstalledInfo := []
  LinkedKeg : String := ""
  Pinned : Bool := false
  Outdated : Bool := false
  Deprecated : Bool := false
  DeprecationDate : String := ""
  DeprecationReason : String := ""
  Disabled : Bool := false
  DisableDate : String := ""
  DisableReason : String := ""
  PostInstallDefined : Bool := false
  FService : Option Service := none
  TapGitHead : String := ""
  RubySourcePath : String := ""
  RubySourceChecksum : RubyChecksum := {}
  deriving DecidableEq

/-- Minimal formula entry for listing/searching. -/
structure FormulaListItem where
  Name : String := ""
  Desc : String := ""
  deriving DecidableEq

/-- Minimal cask entry for listing/searching. -/
structure CaskListItem where
  Token : String := ""
  Name : List String := []
  Desc : String := ""
  deriving DecidableEq

/-- Progress report for one package installation (Error is the Go error,
StartTime a nanosecond instant). -/
structure InstallationStatus where
  Formula : String := ""
  Stage : String := ""
  Progress : Int := 0
  StartTime : Nat := 0
  Error : Option String := none
  deriving DecidableEq

/-! ## Entry cache (client.go: cacheEntry, getFromCache, sync.Map usage)

The sync.Map holding interface values is modelled as an association list from
keys to cacheEntry; the untyped data slot is the sum type CacheData, whose
non-formula constructor stands for any stored value that is not a *Formula
(the Go type assertion cached.(*Formula) fails on it). -/

/-- cacheExpiry = 1 * time.Hour, in nanoseconds. -/
def cacheExpiry : Nat := 3600000000000

/-- The untyped interface value stored in the cache. -/
inductive CacheData where
  | formulaData : Formula → CacheData
  | formulaListData : List Formula → CacheData
  deriving DecidableEq

structure cacheEntry where
  data : CacheData
  timestamp : Nat
  deriving DecidableEq

abbrev CacheMap := List (String × cacheEntry)

/-- sync.Map Load. -/
def cacheLoad : CacheMap → String → Option cacheEntry
  | [], _ => none
  | (k, e) :: rest, key => if k = key then some e else cacheLoad rest key

/-- sync.Map Store (overwrite in place, append if absent). -/
def cacheStore : CacheMap → String → cacheEntry → CacheMap
  | [], key, e => [(key, e)]
  | (k, e0) :: rest, key, e =>
    if k = key then (key, e) :: rest else (k, e0) :: cacheStore rest key e

/-- sync.Map Delete. -/
def cacheDelete : CacheMap → String → CacheMap
  | [], _ => []
  | (k, e) :: rest, key =>
    if k = key then cacheDelete rest key else (k, e) :: cacheDelete rest key

/-- Client.getFromCache: a hit within the TTL returns the stored data; an
expired entry is deleted as a side effect of the read and reported as a miss.
Returns the Go (interface, ok) pair as an Option plus the updated map. -/
def getFromCache (m : CacheMap) (now : Nat) (key : String) :
    Option CacheData × CacheMap :=
  match cacheLoad m key with
  | some entry =>
    if now - entry.timestamp < cacheExpiry then (some entry.data, m)
    else (none, cacheDelete m key)
  | none => (none, m)

/-! ## Catalog cache (client.go: loadFormulaeAndCasks)

The two bulk fetches run in goroutines; each sends its list on success and nil
on failure, and the receiver updates the state under cacheMutex. The update is
modelled as a function of the two channel values (some on success, none on
failure) and the clock reading taken inside the locked section. -/

structure CatalogState where
  formulaeCache : List FormulaListItem
  casksCache : List CaskListItem
  cacheTimestamp : Nat
  deriving DecidableEq

/-- The locked state update at the end of Client.loadFormulaeAndCasks. -/
def loadFormulaeAndCasks (s : CatalogState)
    (formulae : Option (List FormulaListItem))
    (casks : Option (List CaskListItem)) (now : Nat) : CatalogState :=
  let s1 := match formulae with
    | some f => { s with formulaeCache := f, cacheTimestamp := now }
    | none => s
  match casks with
  | some cs => { s1 with casksCache := cs }
  | none => s1

/-! ## Search (client.go: Client.Search) -/

/-- The formula-matching goroutine of Client.Search: walk the cached list and
collect names whose lower-cased name or description contains the term. -/
def searchFormulaeLoop : List FormulaListItem → String → List String
  | [], _ => []
  | f :: rest, lowerTerm =>
    if stringsContains (stringsToLower f.Name) lowerTerm
        || stringsContains (stringsToLower f.Desc) lowerTerm then
      f.Name :: searchFormulaeLoop rest lowerTerm
    else
      searchFormulaeLoop rest lowerTerm

/-- The inner display-name loop of the cask-matching goroutine (break on the
first matching name). -/
def caskNameMatches : List String → String → Bool
  | [], _ => false
  | n :: rest, lowerTerm =>
    stringsContains (stringsToLower n) lowerTerm || caskNameMatches rest lowerTerm

/-- The cask-matching goroutine of Client.Search: token or description match
appends the token, otherwise the display names are tried. -/
def searchCasksLoop : List CaskListItem → String → List String
  | [], _ => []
  | c :: rest, lowerTerm =>
    if stringsContains (stringsToLower c.Token) lowerTerm
        || stringsContains (stringsToLower c.Desc) lowerTerm then
      c.Token :: searchCasksLoop rest lowerTerm
    else if caskNameMatches c.Name lowerTerm then
      c.Token :: searchCasksLoop rest lowerTerm
    else
      searchCasksLoop rest lowerTerm

/-- The matching phase of Client.Search over a given snapshot: lower-case the
term once, run both match passes, return both lists and a nil error. -/
def Search (formulaeCache : List FormulaListItem) (casksCache : List CaskListItem)
    (term : String) : (List String × List String) × Option String :=
  let lowerTerm := stringsToLower term
  ((searchFormulaeLoop formulaeCache lowerTerm,
    searchCasksLoop casksCache lowerTerm), none)

/-- Client.Search including the staleness check: when the snapshot is older
than cacheExpiry or either list is empty, loadFormulaeAndCasks runs first and
the snapshot is re-read (the fixed grace-period wait is modelled as the reload
having completed by the re-read). Returns the Search result and the state. -/
def SearchFull (s : CatalogState) (now : Nat)
    (formulae : Option (List FormulaListItem))
    (casks : Option (List CaskListItem)) (term : String) :
    ((List String × List String) × Option String) × CatalogState :=
  let stale := cacheExpiry < now - s.cacheTimestamp
    || s.formulaeCache.length = 0 || s.casksCache.length = 0
  let s1 := if stale then loadFormulaeAndCasks s formulae casks now else s
  (Search s1.formulaeCache s1.casksCache term, s1)

/-! ## Fetch-by-identifier with fallback (client.go: Client.GetFormula)

The HTTP layer is modelled as an oracle from URL to Option Formula (none for
any transport, status or decode failure). getLocalInstallInfo is an oracle
too: none models a brew invocation or decode error, some the parsed list. The
result carries the list of URLs actually fetched, in order. -/

def HomebrewAPIBase : String := "https://formulae.brew.sh/api"

def formulaURL (name : String) : String :=
  HomebrewAPIBase ++ "/formula/" ++ name ++ ".json"

def caskURL (name : String) : String :=
  HomebrewAPIBase ++ "/cask/" ++ name ++ ".json"

/-- Client.GetFormula: cache lookup with typed assertion, remote fetch as a
formula, cask fallback, local-install merge on the formula branch only, and a
not-found error naming both kinds when both fetches fail. -/
def GetFormula (m : CacheMap) (now : Nat) (fetch : String → Option Formula)
    (localInfo : Option (List InstalledInfo)) (name : String) :
    Except String Formula × CacheMap × List String :=
  match getFromCache m now name with
  | (some (CacheData.formulaData f), m1) => (Except.ok f, m1, [])
  | (_, m1) =>
    match fetch (formulaURL name) with
    | none =>
      match fetch (caskURL name) with
      | some caskFormula =>
        (Except.ok caskFormula,
         cacheStore m1 name ⟨CacheData.formulaData caskFormula, now⟩,
         [formulaURL name, caskURL name])
      | none =>
        (Except.error ("package not found: " ++ name ++ " (tried both formula and cask)"),
         m1, [formulaURL name, caskURL name])
    | some formula =>
      let merged := match localInfo with
        | some installed =>
          if 0 < installed.length then { formula with Installed := installed }
          else formula
        | none => formula
      (Except.ok merged,
       cacheStore m1 name ⟨CacheData.formulaData merged, now⟩,
       [formulaURL name])

/-! ## Install-output classification (client.go: Client.parseInstallOutput) -/

/-- First-match substring classification of one chunk of installer output. -/
def parseInstallOutput (pkg line : String) : Option InstallationStatus :=
  let lower := stringsToLower line
  if stringsContains lower "downloading" then
    some { Formula := pkg, Stage := "downloading", Progress := 25 }
  else if stringsContains lower "installing" then
    some { Formula := pkg, Stage := "installing", Progress := 50 }
  else if stringsContains lower "pouring" then
    some { Formula := pkg, Stage := "installing", Progress := 60 }
  else if stringsContains lower "linking" then
    some { Formula := pkg, Stage := "linking", Progress := 90 }
  else if stringsContains lower "installed" then
    some { Formula := pkg, Stage := "completed", Progress := 100 }
  else
    none

/-! ## Install (client.go: Client.Install)

Per package the external process either yields both pipes, starts, and exits
(cleanly or not), or fails at one of the four error points; ProcOutcome names
these five cases with the Go error text. The events modelled here are the
ones the Install loop itself sends on the status channel; the concurrent
monitorInstallation goroutine's line events (parseInstallOutput) go to the
same channel but are produced independently. -/

inductive ProcOutcome where
  | stdoutPipeFail : String → ProcOutcome
  | stderrPipeFail : String → ProcOutcome
  | startFail : String → ProcOutcome
  | waitFail : String → ProcOutcome
  | success : ProcOutcome
  deriving DecidableEq

/-- One iteration of the Install loop: the starting event (zero progress,
clock reading startTime), then exactly one terminal event derived from the
process outcome by mutating the same status value. -/
def installOne (pkg : String) (startTime : Nat) (o : ProcOutcome) :
    List InstallationStatus :=
  let starting : InstallationStatus :=
    { Formula := pkg, Stage := "starting", StartTime := startTime }
  match o with
  | ProcOutcome.stdoutPipeFail e =>
    [starting, { starting with Stage := "failed", Error := some e }]
  | ProcOutcome.stderrPipeFail e =>
    [starting, { starting with Stage := "failed", Error := some e }]
  | ProcOutcome.startFail e =>
    [starting, { starting with Stage := "failed", Error := some e }]
  | ProcOutcome.waitFail e =>
    [starting, { starting with Stage := "failed", Error := some e }]
  | ProcOutcome.success =>
    [starting, { starting with Stage := "completed", Progress := 100 }]

/-- Client.Install over a list of packages, each with the clock reading at its
loop iteration and its process outcome: the emitted event sequence and the
function-level error (always nil; a failed item continues the loop). -/
def Install (items : List (String × Nat × ProcOutcome)) :
    List InstallationStatus × Option String :=
  (items.flatMap (fun it => installOne it.1 it.2.1 it.2.2), none)

/-! ## Helper lemmas -/

theorem cacheLoad_cacheDelete (m : CacheMap) (key : String) :
    cacheLoad (cacheDelete m key) key = none := by
  induction m with
  | nil => rfl
  | cons p rest ih =>
    obtain ⟨k, e⟩ := p
    by_cases h : k = key
    · simpa [cacheDelete, h] using ih
    · simpa [cacheDelete, cacheLoad, h] using ih

/-! ## Claim theorems -/

/-- C2: a key never stored loads as not-found; a stored key loads the stored
value exactly while now - storedAt < TTL, with the cache untouched; once
now - storedAt >= TTL the load reports not-found and deletes the entry, so
the key no longer exists in the cache afterwards. -/
theorem getFromCache_ttl_spec (m : CacheMap) (key : String) (now : Nat) :
    (cacheLoad m key = none → getFromCache m now key = (none, m)) ∧
    (∀ e, cacheLoad m key = some e → now - e.timestamp < cacheExpiry →
      getFromCache m now key = (some e.data, m)) ∧
    (∀ e, cacheLoad m key = some e → cacheExpiry ≤ now - e.timestamp →
      (getFromCache m now key).1 = none ∧
      cacheLoad (getFromCache m now key).2 key = none) := by
  refine ⟨?_, ?_, ?_⟩
  · intro h
    simp [getFromCache, h]
  · intro e he hlt
    simp [getFromCache, he, hlt]
  · intro e he hge
    have hnl : ¬ now - e.timestamp < cacheExpiry := not_lt.mpr hge
    simp [getFromCache, he, hnl, cacheLoad_cacheDelete]

theorem getFromCache_ttl_spec_witness :
    getFromCache [] 0 "absent" = (none, []) ∧
    getFromCache [("git", ⟨CacheData.formulaData { Name := "git" }, 0⟩)] 10 "git"
      = (some (CacheData.formulaData { Name := "git" }),
         [("git", ⟨CacheData.formulaData { Name := "git" }, 0⟩)]) ∧
    ((getFromCache [("old", ⟨CacheData.formulaData { Name := "old" }, 0⟩)]
        cacheExpiry "old").1 = none ∧
     cacheLoad (getFromCache [("old", ⟨CacheData.formulaData { Name := "old" }, 0⟩)]
        cacheExpiry "old").2 "old" = none) :=
  ⟨(getFromCache_ttl_spec [] "absent" 0).1 rfl,
   (getFromCache_ttl_spec [("git", ⟨CacheData.formulaData { Name := "git" }, 0⟩)]
      "git" 10).2.1 ⟨CacheData.formulaData { Name := "git" }, 0⟩ rfl (by decide),
   (getFromCache_ttl_spec [("old", ⟨CacheData.formulaData { Name := "old" }, 0⟩)]
      "old" cacheExpiry).2.2 ⟨CacheData.formulaData { Name := "old" }, 0⟩ rfl (by decide)⟩

/-- C8: a fresh Entry Cache hit holding a formula value makes GetFormula
return the cached record with the cache unchanged and no URL fetched, for
every fetch oracle (so no remote call and no freshness re-check occurs). -/
theorem GetFormula_cache_hit (m : CacheMap) (now : Nat)
    (fetch : String → Option Formula) (localInfo : Option (List InstalledInfo))
    (name : String) (e : cacheEntry) (f : Formula)
    (h1 : cacheLoad m name = some e) (h2 : now - e.timestamp < cacheExpiry)
    (h3 : e.data = CacheData.formulaData f) :
    GetFormula m now fetch localInfo name = (Except.ok f, m, []) := by
  have hg : getFromCache m now name = (some (CacheData.formulaData f), m) := by
    simp [getFromCache, h1, h2, h3]
  unfold GetFormula
  rw [hg]

theorem GetFormula_cache_hit_witness :
    GetFormula [("git", ⟨CacheData.formulaData { Name := "git" }, 0⟩)] 10
      (fun _ => none) none "git"
      = (Except.ok { Name := "git" },
         [("git", ⟨CacheData.formulaData { Name := "git" }, 0⟩)], []) :=
  GetFormula_cache_hit _ 10 _ none "git"
    ⟨CacheData.formulaData { Name := "git" }, 0⟩ { Name := "git" }
    rfl (by decide) rfl

/-- C10: a fresh cache entry whose untyped value is not a formula record is
treated as a miss without failing: GetFormula returns the same result and
fetches the same URLs as it would if the key were absent from the cache. -/
theorem GetFormula_bad_cache_value (m : CacheMap) (now : Nat)
    (fetch : String → Option Formula) (localInfo : Option (List InstalledInfo))
    (name : String) (e : cacheEntry) (v : List Formula)
    (h1 : cacheLoad m name = some e) (h2 : now - e.timestamp < cacheExpiry)
    (h3 : e.data = CacheData.formulaListData v) :
    (GetFormula m now fetch localInfo name).1
      = (GetFormula (cacheDelete m name) now fetch localInfo name).1 ∧
    (GetFormula m now fetch localInfo name).2.2
      = (GetFormula (cacheDelete m name) now fetch localInfo name).2.2 := by
  have hg1 : getFromCache m now name = (some (CacheData.formulaListData v), m) := by
    simp [getFromCache, h1, h2, h3]
  have hg2 : getFromCache (cacheDelete m name) now name
      = (none, cacheDelete m name) := by
    simp [getFromCache, cacheLoad_cacheDelete]
  unfold GetFormula
  rw [hg1, hg2]
  cases hf : fetch (formulaURL name) with
  | none =>
    cases hc : fetch (caskURL name) with
    | none => exact ⟨rfl, rfl⟩
    | some g => exact ⟨rfl, rfl⟩
  | some g => exact ⟨rfl, rfl⟩

theorem GetFormula_bad_cache_value_witness :
    (GetFormula [("k", ⟨CacheData.formulaListData [], 0⟩)] 10 (fun _ => none) none "k").1
      = (GetFormula (cacheDelete [("k", ⟨CacheData.formulaListData [], 0⟩)] "k") 10
          (fun _ => none) none "k").1 ∧
    (GetFormula [("k", ⟨CacheData.formulaListData [], 0⟩)] 10 (fun _ => none) none "k").2.2
      = (GetFormula (cacheDelete [("k", ⟨CacheData.formulaListData [], 0⟩)] "k") 10
          (fun _ => none) none "k").2.2 :=
  GetFormula_bad_cache_value _ 10 _ none "k" ⟨CacheData.formulaListData [], 0⟩ []
    rfl (by decide) rfl

/-- C4: on a cache miss, when the package-kind fetch fails, the identical
identifier is retried against the cask endpoint URL; a cask success is cached
and returned without error, and when both fail the result is a not-found
error naming both attempted kinds. -/
theorem GetFormula_cask_fallback (m : CacheMap) (now : Nat)
    (fetch : String → Option Formula) (localInfo : Option (List InstalledInfo))
    (name : String)
    (hmiss : ∀ f, (getFromCache m now name).1 ≠ some (CacheData.formulaData f))
    (hpkg : fetch (formulaURL name) = none) :
    (∀ g, fetch (caskURL name) = some g →
      GetFormula m now fetch localInfo name
        = (Except.ok g,
           cacheStore (getFromCache m now name).2 name ⟨CacheData.formulaData g, now⟩,
           [formulaURL name, caskURL name])) ∧
    (fetch (caskURL name) = none →
      GetFormula m now fetch localInfo name
        = (Except.error ("package not found: " ++ name ++ " (tried both formula and cask)"),
           (getFromCache m now name).2,
           [formulaURL name, caskURL name])) := by
  rcases hr : getFromCache m now name with ⟨d, m1⟩
  have hd : ∀ f, d ≠ some (CacheData.formulaData f) := by
    intro f hdf
    exact hmiss f (by rw [hr, hdf])
  constructor
  · intro g hg
    unfold GetFormula
    rw [hr]
    cases d with
    | none => simp [hpkg, hg, hr]
    | some cd =>
      cases cd with
      | formulaData f => exact absurd rfl (hd f)
      | formulaListData v => simp [hpkg, hg, hr]
  · intro hc
    unfold GetFormula
    rw [hr]
    cases d with
    | none => simp [hpkg, hc, hr]
    | some cd =>
      cases cd with
      | formulaData f => exact absurd rfl (hd f)
      | formulaListData v => simp [hpkg, hc, hr]

theorem GetFormula_cask_fallback_witness :
    GetFormula [] 1
      (fun u => if u = caskURL "firefox" then some { Name := "firefox" } else none)
      none "firefox"
      = (Except.ok ({ Name := "firefox" } : Formula),
         [("firefox", ⟨CacheData.formulaData { Name := "firefox" }, 1⟩)],
         [formulaURL "firefox", caskURL "firefox"]) ∧
    GetFormula [] 1 (fun _ => none) none "nosuch"
      = (Except.error "package not found: nosuch (tried both formula and cask)",
         [], [formulaURL "nosuch", caskURL "nosuch"]) :=
  ⟨(GetFormula_cask_fallback [] 1
      (fun u => if u = caskURL "firefox" then some { Name := "firefox" } else none)
      none "firefox" (fun _ h => by simp [getFromCache, cacheLoad] at h)
      (by decide)).1 _ (by decide),
   (GetFormula_cask_fallback [] 1 (fun _ => none) none "nosuch"
      (fun _ h => by simp [getFromCache, cacheLoad] at h) rfl).2 rfl⟩

/-- C1 counterexample: a refresh in which the package-list fetch fails and the
cask-list fetch succeeds keeps the old package list and installs the new cask
list, but does not set any freshness timestamp to the current time (5): the
single timestamp is written only when the package-list fetch succeeds. -/
theorem loadFormulaeAndCasks_timestamp_counterexample :
    ¬ (let s1 := loadFormulaeAndCasks ⟨[⟨"git", "vc"⟩], [], 0⟩ none
          (some [⟨"firefox", ["Firefox"], "browser"⟩]) 5
       s1.formulaeCache = [⟨"git", "vc"⟩] ∧
       s1.casksCache = [⟨"firefox", ["Firefox"], "browser"⟩] ∧
       s1.cacheTimestamp = 5) := by
  decide

/-- C1 amended: in a refresh where exactly one of the two bulk fetches fails,
the failed list's half of the snapshot is left unchanged and the successful
half is replaced with the fetched list; the snapshot's single freshness
timestamp is set to the current time exactly when the package-list fetch
succeeds (a cask-only success leaves it unchanged); the refresh is a total
state update, so one failed fetch never fails the operation. -/
theorem loadFormulaeAndCasks_single_failure (s : CatalogState) (now : Nat)
    (fs : List FormulaListItem) (cs : List CaskListItem) :
    loadFormulaeAndCasks s none (some cs) now = { s with casksCache := cs } ∧
    loadFormulaeAndCasks s (some fs) none now
      = { s with formulaeCache := fs, cacheTimestamp := now } :=
  ⟨rfl, rfl⟩

/-- C3: the install-output classifier applies the case-insensitive substring
table in first-match order — downloading/25, then installing/50, pouring
(stage installing)/60, linking/90, installed (stage completed)/100 — and a
line matching none of the five substrings yields no event. -/
theorem parseInstallOutput_table (pkg line : String) :
    (stringsContains (stringsToLower line) "downloading" = true →
      parseInstallOutput pkg line
        = some { Formula := pkg, Stage := "downloading", Progress := 25 }) ∧
    (stringsContains (stringsToLower line) "downloading" = false →
     stringsContains (stringsToLower line) "installing" = true →
      parseInstallOutput pkg line
        = some { Formula := pkg, Stage := "installing", Progress := 50 }) ∧
    (stringsContains (stringsToLower line) "downloading" = false →
     stringsContains (stringsToLower line) "installing" = false →
     stringsContains (stringsToLower line) "pouring" = true →
      parseInstallOutput pkg line
        = some { Formula := pkg, Stage := "installing", Progress := 60 }) ∧
    (stringsContains (stringsToLower line) "downloading" = false →
     stringsContains (stringsToLower line) "installing" = false →
     stringsContains (stringsToLower line) "pouring" = false →
     stringsContains (stringsToLower line) "linking" = true →
      parseInstallOutput pkg line
        = some { Formula := pkg, Stage := "linking", Progress := 90 }) ∧
    (stringsContains (stringsToLower line) "downloading" = false →
     stringsContains (stringsToLower line) "installing" = false →
     stringsContains (stringsToLower line) "pouring" = false →
     stringsContains (stringsToLower line) "linking" = false →
     stringsContains (stringsToLower line) "installed" = true →
      parseInstallOutput pkg line
        = some { Formula := pkg, Stage := "completed", Progress := 100 }) ∧
    (stringsContains (stringsToLower line) "downloading" = false →
     stringsContains (stringsToLower line) "installing" = false →
     stringsContains (stringsToLower line) "pouring" = false →
     stringsContains (stringsToLower line) "linking" = false →
     stringsContains (stringsToLower line) "installed" = false →
      parseInstallOutput pkg line = none) := by
  refine ⟨?_, ?_, ?_, ?_, ?_, ?_⟩ <;>
    · intros
      simp only [parseInstallOutput]
      simp [*]

theorem parseInstallOutput_table_witness :
    parseInstallOutput "foo" "==> Downloading foo-1.0.tar.gz"
      = some { Formula := "foo", Stage := "downloading", Progress := 25 } ∧
    parseInstallOutput "foo" "==> Installing foo"
      = some { Formula := "foo", Stage := "installing", Progress := 50 } ∧
    parseInstallOutput "foo" "==> Pouring foo--1.0.bottle.tar.gz"
      = some { Formula := "foo", Stage := "installing", Progress := 60 } ∧
    parseInstallOutput "foo" "==> Linking foo"
      = some { Formula := "foo", Stage := "linking", Progress := 90 } ∧
    parseInstallOutput "foo" "foo 1.0 is installed"
      = some { Formula := "foo", Stage := "completed", Progress := 100 } ∧
    parseInstallOutput "foo" "make: nothing to be done" = none :=
  ⟨(parseInstallOutput_table "foo" "==> Downloading foo-1.0.tar.gz").1 (by decide),
   (parseInstallOutput_table "foo" "==> Installing foo").2.1 (by decide) (by decide),
   (parseInstallOutput_table "foo" "==> Pouring foo--1.0.bottle.tar.gz").2.2.1
     (by decide) (by decide) (by decide),
   (parseInstallOutput_table "foo" "==> Linking foo").2.2.2.1
     (by decide) (by decide) (by decide) (by decide),
   (parseInstallOutput_table "foo" "foo 1.0 is installed").2.2.2.2.1
     (by decide) (by decide) (by decide) (by decide) (by decide),
   (parseInstallOutput_table "foo" "make: nothing to be done").2.2.2.2.2
     (by decide) (by decide) (by decide) (by decide) (by decide)⟩

/-- C5: Install returns a nil function-level error, and per target package it
emits exactly one starting event with progress 0 before spawning and exactly
one terminal event after the process finishes — completed with progress 100
on success, and on any of the four process-failure points a failed event
carrying exactly that failure's error. -/
theorem Install_event_protocol (items : List (String × Nat × ProcOutcome)) :
    (Install items).2 = none ∧
    ∃ blocks : List (List InstallationStatus),
      (Install items).1 = blocks.flatten ∧
      List.Forall₂ (fun it b =>
        ∃ e1 e2 : InstallationStatus, b = [e1, e2] ∧
          e1 = { Formula := it.1, Stage := "starting", Progress := 0,
                 StartTime := it.2.1, Error := none } ∧
          e2.Formula = it.1 ∧
          (it.2.2 = ProcOutcome.success →
            e2 = { Formula := it.1, Stage := "completed", Progress := 100,
                   StartTime := it.2.1, Error := none }) ∧
          (∀ msg, it.2.2 = ProcOutcome.stdoutPipeFail msg
              ∨ it.2.2 = ProcOutcome.stderrPipeFail msg
              ∨ it.2.2 = ProcOutcome.startFail msg
              ∨ it.2.2 = ProcOutcome.waitFail msg →
            e2 = { Formula := it.1, Stage := "failed", Progress := 0,
                   StartTime := it.2.1, Error := some msg }) ∧
          (it.2.2 ≠ ProcOutcome.success →
            e2.Stage = "failed" ∧ e2.Error ≠ none)) items blocks := by
  refine ⟨rfl, items.map (fun it => installOne it.1 it.2.1 it.2.2), ?_, ?_⟩
  · simp [Install, List.flatMap]
  · induction items with
    | nil => exact List.Forall₂.nil
    | cons it rest ih =>
      refine List.Forall₂.cons ?_ ih
      obtain ⟨name, t, o⟩ := it
      cases o with
      | stdoutPipeFail e =>
        refine ⟨_, _, rfl, rfl, rfl, fun h => by simp at h, ?_,
          fun _ => ⟨rfl, by simp⟩⟩
        intro msg hmsg
        rcases hmsg with h | h | h | h
        · injection h with he
          subst he
          rfl
        · simp at h
        · simp at h
        · simp at h
      | stderrPipeFail e =>
        refine ⟨_, _, rfl, rfl, rfl, fun h => by simp at h, ?_,
          fun _ => ⟨rfl, by simp⟩⟩
        intro msg hmsg
        rcases hmsg with h | h | h | h
        · simp at h
        · injection h with he
          subst he
          rfl
        · simp at h
        · simp at h
      | startFail e =>
        refine ⟨_, _, rfl, rfl, rfl, fun h => by simp at h, ?_,
          fun _ => ⟨rfl, by simp⟩⟩
        intro msg hmsg
        rcases hmsg with h | h | h | h
        · simp at h
        · simp at h
        · injection h with he
          subst he
          rfl
        · simp at h
      | waitFail e =>
        refine ⟨_, _, rfl, rfl, rfl, fun h => by simp at h, ?_,
          fun _ => ⟨rfl, by simp⟩⟩
        intro msg hmsg
        rcases hmsg with h | h | h | h
        · simp at h
        · simp at h
        · simp at h
        · injection h with he
          subst he
          rfl
      | success =>
        refine ⟨_, _, rfl, rfl, rfl, fun _ => rfl, ?_, fun h => absurd rfl h⟩
        intro msg hmsg
        rcases hmsg with h | h | h | h <;> simp at h

theorem searchFormulaeLoop_eq_filter (fc : List FormulaListItem) (t : String) :
    searchFormulaeLoop fc t
      = (fc.filter (fun f => stringsContains (stringsToLower f.Name) t
          || stringsContains (stringsToLower f.Desc) t)).map FormulaListItem.Name := by
  induction fc with
  | nil => rfl
  | cons f rest ih =>
    by_cases h : (stringsContains (stringsToLower f.Name) t
        || stringsContains (stringsToLower f.Desc) t) = true
    · simp [searchFormulaeLoop, List.filter_cons, h, ih]
    · simp [searchFormulaeLoop, List.filter_cons, h, ih]

theorem caskNameMatches_eq_any (ns : List String) (t : String) :
    caskNameMatches ns t = ns.any (fun n => stringsContains (stringsToLower n) t) := by
  induction ns with
  | nil => rfl
  | cons n rest ih => simp [caskNameMatches, ih]

theorem searchCasksLoop_eq_filter (cc : List CaskListItem) (t : String) :
    searchCasksLoop cc t
      = (cc.filter (fun c => stringsContains (stringsToLower c.Token) t
          || stringsContains (stringsToLower c.Desc) t
          || c.Name.any (fun n => stringsContains (stringsToLower n) t))).map
          CaskListItem.Token := by
  induction cc with
  | nil => rfl
  | cons c rest ih =>
    by_cases h1 : (stringsContains (stringsToLower c.Token) t
        || stringsContains (stringsToLower c.Desc) t) = true
    · simp [searchCasksLoop, List.filter_cons, h1, ih]
    · by_cases h2 : caskNameMatches c.Name t = true
      · simp [searchCasksLoop, List.filter_cons, h1, h2, ih, ← caskNameMatches_eq_any]
      · simp [searchCasksLoop, List.filter_cons, h1, h2, ih, ← caskNameMatches_eq_any]

theorem map_toLower_of_caseInsensitiveEq :
    ∀ as bs : List Char, caseInsensitiveEq as bs = true →
      as.map Char.toLower = bs.map Char.toLower := by
  intro as
  induction as with
  | nil =>
    intro bs h
    cases bs with
    | nil => rfl
    | cons b bs => simp [caseInsensitiveEq] at h
  | cons a as ih =>
    intro bs h
    cases bs with
    | nil => simp [caseInsensitiveEq] at h
    | cons b bs =>
      simp only [caseInsensitiveEq, Bool.and_eq_true, beq_iff_eq] at h
      simp [h.1, ih bs h.2]

theorem Search_no_match (fc : List FormulaListItem) (cc : List CaskListItem)
    (term : String)
    (hf : ∀ f ∈ fc, (stringsContains (stringsToLower f.Name) (stringsToLower term)
        || stringsContains (stringsToLower f.Desc) (stringsToLower term)) = false)
    (hc : ∀ c ∈ cc, (stringsContains (stringsToLower c.Token) (stringsToLower term)
        || stringsContains (stringsToLower c.Desc) (stringsToLower term)
        || c.Name.any (fun n => stringsContains (stringsToLower n) (stringsToLower term)))
        = false) :
    (Search fc cc term).1 = ([], []) := by
  show (searchFormulaeLoop fc (stringsToLower term),
        searchCasksLoop cc (stringsToLower term)) = ([], [])
  rw [searchFormulaeLoop_eq_filter, searchCasksLoop_eq_filter]
  rw [List.filter_eq_nil_iff.mpr (by simpa using hf),
      List.filter_eq_nil_iff.mpr (by simpa using hc)]
  rfl

/-- C6: a package name is in the package results iff the lower-cased term is
a substring of its lower-cased name or description; a cask token is in the
cask results iff the lower-cased term is a substring of the lower-cased
token, the lower-cased description or one of the display names; results keep
the snapshot iteration order (filter followed by projection, unsorted); and
on the spec's concrete snapshot, search for git returns packages [git] and
casks [github]. -/
theorem Search_match_characterization (fc : List FormulaListItem)
    (cc : List CaskListItem) (term : String) :
    (Search fc cc term).1.1
      = (fc.filter (fun f =>
          stringsContains (stringsToLower f.Name) (stringsToLower term)
          || stringsContains (stringsToLower f.Desc) (stringsToLower term))).map
          FormulaListItem.Name ∧
    (Search fc cc term).1.2
      = (cc.filter (fun c =>
          stringsContains (stringsToLower c.Token) (stringsToLower term)
          || stringsContains (stringsToLower c.Desc) (stringsToLower term)
          || c.Name.any (fun n =>
               stringsContains (stringsToLower n) (stringsToLower term)))).map
          CaskListItem.Token ∧
    (∀ nm, nm ∈ (Search fc cc term).1.1 ↔
      ∃ f, f ∈ fc ∧ f.Name = nm ∧
        (stringsContains (stringsToLower f.Name) (stringsToLower term)
         || stringsContains (stringsToLower f.Desc) (stringsToLower term)) = true) ∧
    (∀ tk, tk ∈ (Search fc cc term).1.2 ↔
      ∃ c, c ∈ cc ∧ c.Token = tk ∧
        (stringsContains (stringsToLower c.Token) (stringsToLower term)
         || stringsContains (stringsToLower c.Desc) (stringsToLower term)
         || c.Name.any (fun n =>
              stringsContains (stringsToLower n) (stringsToLower term))) = true) ∧
    Search [⟨"git", "Distributed version control"⟩, ⟨"node", "JavaScript runtime"⟩]
      [⟨"github", ["GitHub Desktop"], "..."⟩] "git" = ((["git"], ["github"]), none) := by
  have hp : (Search fc cc term).1.1
      = (fc.filter (fun f =>
          stringsContains (stringsToLower f.Name) (stringsToLower term)
          || stringsContains (stringsToLower f.Desc) (stringsToLower term))).map
          FormulaListItem.Name := searchFormulaeLoop_eq_filter fc (stringsToLower term)
  have hq : (Search fc cc term).1.2
      = (cc.filter (fun c =>
          stringsContains (stringsToLower c.Token) (stringsToLower term)
          || stringsContains (stringsToLower c.Desc) (stringsToLower term)
          || c.Name.any (fun n =>
               stringsContains (stringsToLower n) (stringsToLower term)))).map
          CaskListItem.Token := searchCasksLoop_eq_filter cc (stringsToLower term)
  refine ⟨hp, hq, ?_, ?_, by decide⟩
  · intro nm
    rw [hp]
    simp only [List.mem_map, List.mem_filter]
    constructor
    · rintro ⟨f, ⟨hfm, hfp⟩, hfn⟩
      exact ⟨f, hfm, hfn, hfp⟩
    · rintro ⟨f, hfm, hfn, hfp⟩
      exact ⟨f, ⟨hfm, hfp⟩, hfn⟩
  · intro tk
    rw [hq]
    simp only [List.mem_map, List.mem_filter]
    constructor
    · rintro ⟨c, ⟨hcm, hcp⟩, hct⟩
      exact ⟨c, hcm, hct, hcp⟩
    · rintro ⟨c, hcm, hct, hcp⟩
      exact ⟨c, ⟨hcm, hcp⟩, hct⟩

/-- C7: two search terms that differ only in letter case (their characters
agree pairwise after lower-casing) produce identical search results over
every snapshot state. -/
theorem SearchFull_case_insensitive (s : CatalogState) (now : Nat)
    (formulae : Option (List FormulaListItem)) (casks : Option (List CaskListItem))
    (t1 t2 : String) (h : caseInsensitiveEq t1.data t2.data = true) :
    SearchFull s now formulae casks t1 = SearchFull s now formulae casks t2 := by
  have hl : stringsToLower t1 = stringsToLower t2 :=
    congrArg String.mk (map_toLower_of_caseInsensitiveEq t1.data t2.data h)
  simp only [SearchFull, Search, hl]

theorem SearchFull_case_insensitive_witness :
    caseInsensitiveEq "GiT".data "git".data = true ∧
    SearchFull ⟨[⟨"git", "Distributed version control"⟩],
        [⟨"github", ["GitHub Desktop"], "..."⟩], 0⟩ 0 none none "GiT"
      = SearchFull ⟨[⟨"git", "Distributed version control"⟩],
          [⟨"github", ["GitHub Desktop"], "..."⟩], 0⟩ 0 none none "git" :=
  ⟨by decide,
   SearchFull_case_insensitive _ 0 none none "GiT" "git" (by decide)⟩

/-- C9: search never returns an error for any cache state, clock, fetch
outcomes and term — the error component is always nil — and when nothing in
the (possibly refreshed) snapshot matches the term it returns two empty
lists rather than failing; the model is a total function, so the empty
snapshot cases are covered without panic. -/
theorem SearchFull_no_error (s : CatalogState) (now : Nat)
    (formulae : Option (List FormulaListItem)) (casks : Option (List CaskListItem))
    (term : String) :
    (SearchFull s now formulae casks term).1.2 = none ∧
    ((∀ f ∈ (SearchFull s now formulae casks term).2.formulaeCache,
        (stringsContains (stringsToLower f.Name) (stringsToLower term)
         || stringsContains (stringsToLower f.Desc) (stringsToLower term)) = false) →
     (∀ c ∈ (SearchFull s now formulae casks term).2.casksCache,
        (stringsContains (stringsToLower c.Token) (stringsToLower term)
         || stringsContains (stringsToLower c.Desc) (stringsToLower term)
         || c.Name.any (fun n =>
              stringsContains (stringsToLower n) (stringsToLower term))) = false) →
     (SearchFull s now formulae casks term).1.1 = ([], [])) :=
  ⟨rfl, fun hf hc => Search_no_match _ _ term hf hc⟩

theorem SearchFull_no_error_witness :
    (SearchFull ⟨[], [], 0⟩ 0 none none "zzz").1.2 = none ∧
    (SearchFull ⟨[], [], 0⟩ 0 none none "zzz").1.1 = ([], []) :=
  ⟨(SearchFull_no_error ⟨[], [], 0⟩ 0 none none "zzz").1,
   (SearchFull_no_error ⟨[], [], 0⟩ 0 none none "zzz").2 (by decide) (by decide)⟩

end Goobrew
